import Mathlib

/-
Verification development for the LQM (Large Quantitative Model) repository.

Shallow embedding of the Python sources:
  - firestore_util.py : daily shot-budget counter (use_shots)
  - model.py          : RULES loading, classical scorer, batch_predict pipeline
  - qpu_client.py     : refinement backend (modelled as an oracle parameter)
  - circuits.py       : feature-to-circuit encoding (angle parameter)
  - tune.py           : parameter application inside one tuning trial

Python floats are modelled as rationals; the backend and the quota store are
modelled with explicit state passing.  Fallible calls return Except.
-/

set_option maxRecDepth 4000

namespace LQM

/-! ## Association-list store, mirroring the Firestore counter document.

The counter document `shot_counter` maps a day key (string) to an integer
usage.  `lookupKey` is dict lookup, `setKey` is dict assignment. -/

def lookupKey {β : Type} (k : String) : List (String × β) → Option β
  | [] => none
  | (k', v) :: rest => if k' = k then some v else lookupKey k rest

def setKey {β : Type} (k : String) (v : β) : List (String × β) → List (String × β)
  | [] => [(k, v)]
  | (k', v') :: rest => if k' = k then (k, v) :: rest else (k', v') :: setKey k v rest

/-- Usage recorded for a day key: `data.get(today, 0)` in the source. -/
def usageOf (data : List (String × Nat)) (day : String) : Nat :=
  (lookupKey day data).getD 0

/-! ## firestore_util.use_shots

Source (firestore_util.py, lines 26-45):

    def txn(tx):
        snap = doc.get(transaction=tx)
        data = snap.to_dict() or \x7b\x7d
        used = data.get(today, 0)
        if used + n > _DAILY_BUDGET:
            return False
        data[today] = used + n
        tx.set(doc, data)
        return True

The transaction is modelled as a pure step on the counter document. -/

def DAILY_BUDGET : Nat := 2500

def use_shots (n : Nat) (data : List (String × Nat)) (today : String) :
    Bool × List (String × Nat) :=
  let used := usageOf data today
  if used + n > DAILY_BUDGET then (false, data)
  else (true, setKey today (used + n) data)

/-- Sequentially apply a list of reservation requests, returning the grant
decisions and the final counter document. -/
def runReservations (reqs : List Nat) (data : List (String × Nat))
    (today : String) : List Bool × List (String × Nat) :=
  match reqs with
  | [] => ([], data)
  | n :: rest =>
    let step := use_shots n data today
    let tail := runReservations rest step.2 today
    (step.1 :: tail.1, tail.2)

/-- Total of the granted amounts in a run: sum of `n` over calls that
returned true. -/
def grantedSum : List Nat → List Bool → Nat
  | [], _ => 0
  | _, [] => 0
  | n :: ns, g :: gs => (if g then n else 0) + grantedSum ns gs

/-! ## model.RULES and the RuleSet record

Source (model.py, lines 20-42): a dict of defaults, then the first existing
file among best_params.json, rules.json is parsed with json.loads and merged
via RULES.update.  `RuleSet` is the record of the keys the scorer reads. -/

structure RuleSet where
  ma_trend_weight : ℚ
  rsi_extreme_weight : ℚ
  vol_rank_weight : ℚ
  momentum_3d_weight : ℚ
  rsi_high : ℚ
  rsi_low : ℚ
  iv_rank_high : ℚ
  iv_rank_low : ℚ
  angle_0 : ℚ
  angle_1 : ℚ
deriving DecidableEq

def defaultRules : RuleSet :=
  ⟨2/5, 3/10, 1/5, 1/10, 70, 30, 7/10, 3/10, 15707/10000, 15707/10000⟩

/-- Default RULES dict, key by key, as in model.py lines 20-34. -/
def RULES_default : List (String × ℚ) :=
  [("ma_trend_weight", 2/5), ("rsi_extreme_weight", 3/10),
   ("vol_rank_weight", 1/5), ("momentum_3d_weight", 1/10),
   ("rsi_high", 70), ("rsi_low", 30),
   ("iv_rank_high", 7/10), ("iv_rank_low", 3/10),
   ("angle_0", 15707/10000), ("angle_1", 15707/10000)]

/-- State of one override file: missing, present but not valid JSON, or
present with a parsed key-to-value mapping. -/
inductive OverrideSource where
  | absent
  | malformed
  | wellFormed (ov : List (String × ℚ))

/-- dict.update of the defaults with the parsed override. -/
def updateRules (base ov : List (String × ℚ)) : List (String × ℚ) :=
  ov.foldl (fun acc kv => setKey kv.1 kv.2 acc) base

/-- Parameter-loading loop, model.py lines 37-42: probe the sources in
order; the first existing one is parsed and merged, then the loop breaks.
There is no try-except around json.loads, so a malformed source raises
(modelled as Except.error). -/
def loadRules : List OverrideSource → Except Unit (List (String × ℚ))
  | [] => Except.ok RULES_default
  | OverrideSource.absent :: rest => loadRules rest
  | OverrideSource.malformed :: _ => Except.error ()
  | OverrideSource.wellFormed ov :: _ => Except.ok (updateRules RULES_default ov)

/-! ## Classical scorer helpers (model.py lines 45-69) -/

/-- Consecutive differences: df Close diff dropna. -/
def diffs : List ℚ → List ℚ
  | [] => []
  | [_] => []
  | a :: b :: rest => (b - a) :: diffs (b :: rest)

/-- pandas tail(n). -/
def lastN (n : Nat) (xs : List ℚ) : List ℚ := xs.drop (xs.length - n)

def mean (xs : List ℚ) : ℚ := xs.sum / (xs.length : ℚ)

def ma (closes : List ℚ) (w : Nat) : ℚ := mean (lastN w closes)

/-- Python round(x, 2): round to two decimal places. -/
def round2 (q : ℚ) : ℚ := ((round (q * 100) : ℤ) : ℚ) / 100

def rsi (closes : List ℚ) (w : Nat) : ℚ :=
  let delta := diffs closes
  let gains := delta.map (fun d => max d 0)
  let losses := delta.map (fun d => max (-d) 0)
  if delta.length < w then 50
  else
    let avg_gain := mean (lastN w gains)
    let avg_loss := mean (lastN w losses)
    if avg_loss = 0 then (if avg_gain > 0 then 100 else 50)
    else
      let rs := avg_gain / avg_loss
      100 - 100 / (1 + rs)

def iv_rank (cur : ℚ) (hist : List ℚ) : ℚ :=
  ((hist.filter (fun x => x < cur)).length : ℚ) / (hist.length : ℚ)

/-! ## Classical scorer (model.py, _classical_predict, lines 77-104)

The price history (daily closes, oldest first) replaces the fetched
dataframe.  iloc[-1] is the last close, iloc[-4] the fourth from the end;
a history shorter than 4 closes would raise in pandas, modelled as none. -/

def ivHistConst : List ℚ := [25/100, 28/100, 30/100, 27/100, 33/100, 38/100, 31/100]

/-- Accumulated weighted score of _classical_predict, given the last close
and the close four periods back. -/
def classicalScore (closes : List ℚ) (r : RuleSet) (close c4 : ℚ) : ℚ :=
  let ma10 := ma closes 10
  let mom3d := (close - c4) / c4
  let rsi14 := rsi closes 14
  let iv_rnk := iv_rank (35/100) ivHistConst
  r.ma_trend_weight * (if close > ma10 then 1 else -1)
    + r.momentum_3d_weight * (if mom3d > 0 then 1 else -1)
    + (if rsi14 ≥ r.rsi_high then -r.rsi_extreme_weight
       else if rsi14 ≤ r.rsi_low then r.rsi_extreme_weight else 0)
    + (if iv_rnk ≥ r.iv_rank_high then -r.vol_rank_weight
       else if iv_rnk ≤ r.iv_rank_low then r.vol_rank_weight else 0)

def classical_predict (closes : List ℚ) (r : RuleSet) : Option (Int × ℚ) :=
  match closes.getLast?, closes.reverse.get? 3 with
  | some close, some c4 =>
    let score := classicalScore closes r close c4
    some (if score ≥ 0 then 1 else -1, round2 (min |score| 1))
  | _, _ => none

/-! ## Features, circuits and backend histograms -/

structure Feature where
  spot_price : ℚ
  strike_price : ℚ
  volatility : ℚ
  time_to_maturity : ℚ
  risk_free_rate : ℚ
deriving DecidableEq

instance : Inhabited Feature := ⟨⟨0, 1, 0, 0, 0⟩⟩

/-- circuits.build_circuit: the circuit is determined by the Ry angle
theta = diff * pi with diff = (spot - strike) / strike; we record diff
(the angle in units of pi). -/
def build_circuit (f : Feature) : ℚ :=
  (f.spot_price - f.strike_price) / f.strike_price

/-- Outcome histogram returned by the backend for one circuit. -/
structure Hist where
  ones : Nat
  zeros : Nat
deriving DecidableEq

instance : Inhabited Hist := ⟨⟨0, 0⟩⟩

/-! ## Escalation pipeline (model.py, batch_predict, lines 107-131) -/

def QPU_THRESHOLD : ℚ := 3/4

def SHOTS_PER_FEAT : Nat := 100

/-- Indices whose confidence reaches the escalation threshold
(idx_qpu list comprehension, model.py line 114). -/
def selectedIdx (confs : List ℚ) : List Nat :=
  (confs.enum.filter (fun ic => ic.2 ≥ QPU_THRESHOLD)).map Prod.fst

/-- Histogram-to-prediction conversion for one escalated row
(model.py lines 123-129). -/
def refineOne (h : Hist) : Int × ℚ :=
  let total : Nat := max (h.ones + h.zeros) 1
  let p_up : ℚ := (h.ones : ℚ) / (total : ℚ)
  (if p_up ≥ 1/2 then 1 else -1, round2 (|p_up - 1/2| * 2))

structure BatchResult where
  preds : List Int
  confs : List ℚ
  quota : List (String × Nat)
  quotaInvoked : Bool

/-- Refinement fold used in batch_predict: the for-loop over
enumerate(idx_qpu) writing preds[i] and confs[i]. -/
def refineFold (l : List (Nat × Hist)) (ps : List Int) (cs : List ℚ) :
    List Int × List ℚ :=
  l.foldl
    (fun acc ih =>
      ((acc.1.set ih.1 (refineOne ih.2).1),
       (acc.2.set ih.1 (refineOne ih.2).2)))
    (ps, cs)

/-- batch_predict.  The market fetch is replaced by the closes list, the
backend by the submit oracle, the Firestore counter by explicit state.
quotaInvoked records whether use_shots was called.  A backend exception
propagates: the source has no try-except around qpu_client.submit. -/
def batch_predict (closes : List ℚ) (r : RuleSet)
    (submit : List ℚ → Except Unit (List Hist))
    (data : List (String × Nat)) (today : String)
    (feats : List Feature) : Except Unit BatchResult :=
  match classical_predict closes r with
  | none => Except.error ()
  | some pc =>
    let preds := List.replicate feats.length pc.1
    let confs := List.replicate feats.length pc.2
    let idx_qpu := selectedIdx confs
    let needed_shots := idx_qpu.length * SHOTS_PER_FEAT
    if idx_qpu.isEmpty then Except.ok ⟨preds, confs, data, false⟩
    else
      let res := use_shots needed_shots data today
      if res.1 then
        let circuits_batch := idx_qpu.map (fun i => build_circuit (feats.getD i default))
        match submit circuits_batch with
        | Except.error e => Except.error e
        | Except.ok hists =>
          if hists.length < idx_qpu.length then Except.error ()
          else
            let upd := refineFold (idx_qpu.zip hists) preds confs
            Except.ok ⟨upd.1, upd.2, res.2, true⟩
      else Except.ok ⟨preds, confs, res.2, true⟩

/-! ## Tuning trial parameter application (tune.py, objective, lines 52-84)

The objective samples candidate values and stores each one with
trial.set_user_attr; it never writes them into model.RULES, so the
backtest inside the trial scores with the unchanged global rules. -/

structure TrialEffect where
  user_attrs : List (String × ℚ)
  rules_during_backtest : RuleSet

def objectiveParamApplication (globalRules : RuleSet)
    (candidate : List (String × ℚ)) : TrialEffect :=
  ⟨candidate, globalRules⟩

/-! ## Named score contributions, for stating the scorer formula -/

def trendContrib (closes : List ℚ) (r : RuleSet) (close : ℚ) : ℚ :=
  r.ma_trend_weight * (if close > ma closes 10 then 1 else -1)

def momentumContrib (r : RuleSet) (close c4 : ℚ) : ℚ :=
  r.momentum_3d_weight * (if (close - c4) / c4 > 0 then 1 else -1)

def oscillatorContrib (closes : List ℚ) (r : RuleSet) : ℚ :=
  if rsi closes 14 ≥ r.rsi_high then -r.rsi_extreme_weight
  else if rsi closes 14 ≤ r.rsi_low then r.rsi_extreme_weight else 0

def volRankContrib (r : RuleSet) : ℚ :=
  if iv_rank (35/100) ivHistConst ≥ r.iv_rank_high then -r.vol_rank_weight
  else if iv_rank (35/100) ivHistConst ≤ r.iv_rank_low then r.vol_rank_weight
  else 0

/-! ## List helper lemmas for the refinement fold -/

/-! ## Concrete fixtures and evaluation lemmas, used by witnesses -/

def f0 : Feature := ⟨100, 105, 1/4, 7/365, 3/100⟩

def unitTrendRules : RuleSet := ⟨1, 0, 0, 0, 70, 30, 7/10, 3/10, 15707/10000, 15707/10000⟩

def candTrendRules : RuleSet := ⟨-(2/5), 3/10, 1/5, 1/10, 70, 30, 7/10, 3/10, 15707/10000, 15707/10000⟩

def failSubmit : List ℚ → Except Unit (List Hist) := fun _ => Except.error ()

def okSubmit : List ℚ → Except Unit (List Hist) := fun _ => Except.ok [⟨60, 40⟩]

/-! ## Theorems -/

theorem lookupKey_setKey_self {β : Type} (k : String) (v : β)
    (d : List (String × β)) : lookupKey k (setKey k v d) = some v := by
  induction d with
  | nil => simp [setKey, lookupKey]
  | cons hd tl ih =>
    obtain ⟨k', v'⟩ := hd
    by_cases h : k' = k
    · simp [setKey, lookupKey, h]
    · simp [setKey, lookupKey, h, ih]

theorem lookupKey_setKey_ne {β : Type} (k k₀ : String) (v : β)
    (d : List (String × β)) (hne : k₀ ≠ k) :
    lookupKey k₀ (setKey k v d) = lookupKey k₀ d := by
  induction d with
  | nil => simp [setKey, lookupKey, Ne.symm hne]
  | cons hd tl ih =>
    obtain ⟨k', v'⟩ := hd
    by_cases h : k' = k
    · subst h
      simp [setKey, lookupKey, Ne.symm hne]
    · simp [setKey, lookupKey, h, ih]

theorem use_shots_eq (n : Nat) (data : List (String × Nat)) (today : String) :
    use_shots n data today =
      if usageOf data today + n > DAILY_BUDGET then (false, data)
      else (true, setKey today (usageOf data today + n) data) := rfl

theorem use_shots_usage_eq (n : Nat) (data : List (String × Nat))
    (today : String) :
    usageOf (use_shots n data today).2 today =
      usageOf data today + (if (use_shots n data today).1 then n else 0) := by
  rw [use_shots_eq]
  by_cases h : usageOf data today + n > DAILY_BUDGET
  · simp [h]
  · rw [if_neg h]
    simp [usageOf, lookupKey_setKey_self]

theorem use_shots_usage_le (n : Nat) (data : List (String × Nat))
    (today : String) (hle : usageOf data today ≤ DAILY_BUDGET) :
    usageOf (use_shots n data today).2 today ≤ DAILY_BUDGET := by
  rw [use_shots_eq]
  by_cases h : usageOf data today + n > DAILY_BUDGET
  · simpa [h] using hle
  · rw [if_neg h]
    simp only [usageOf, lookupKey_setKey_self, Option.getD_some]
    simp only [usageOf] at h
    omega

theorem runReservations_usage (reqs : List Nat) (data : List (String × Nat))
    (today : String) :
    usageOf (runReservations reqs data today).2 today =
      usageOf data today +
        grantedSum reqs (runReservations reqs data today).1 := by
  induction reqs generalizing data with
  | nil => simp [runReservations, grantedSum]
  | cons n rest ih =>
    simp only [runReservations, grantedSum]
    rw [ih, use_shots_usage_eq]
    omega

theorem runReservations_usage_le (reqs : List Nat)
    (data : List (String × Nat)) (today : String)
    (hle : usageOf data today ≤ DAILY_BUDGET) :
    usageOf (runReservations reqs data today).2 today ≤ DAILY_BUDGET := by
  induction reqs generalizing data with
  | nil => simpa [runReservations] using hle
  | cons n rest ih =>
    simp only [runReservations]
    exact ih _ (use_shots_usage_le n data today hle)

theorem classicalScore_decomp (closes : List ℚ) (r : RuleSet) (close c4 : ℚ) :
    classicalScore closes r close c4 =
      trendContrib closes r close + momentumContrib r close c4
        + oscillatorContrib closes r + volRankContrib r := rfl

/-! ## Helper lemmas for round2 and bounds -/

theorem round2_eval (q : ℚ) (z : ℤ) (h1 : (z : ℚ) ≤ q * 100 + 1/2)
    (h2 : q * 100 + 1/2 < z + 1) : round2 q = (z : ℚ) / 100 := by
  unfold round2
  rw [round_eq, Int.floor_eq_iff.mpr ⟨h1, by exact_mod_cast h2⟩]

theorem round2_bounds (q : ℚ) (h0 : 0 ≤ q) (h1 : q ≤ 1) :
    0 ≤ round2 q ∧ round2 q ≤ 1 := by
  unfold round2
  rw [round_eq]
  have hlo : (0 : ℤ) ≤ ⌊q * 100 + 1/2⌋ := Int.le_floor.mpr (by push_cast; linarith)
  have hhi : ⌊q * 100 + 1/2⌋ ≤ 100 := by
    have h101 : ⌊q * 100 + 1/2⌋ < 101 := Int.floor_lt.mpr (by push_cast; linarith)
    omega
  constructor
  · positivity
  · rw [div_le_one (by norm_num)]
    exact_mod_cast hhi

theorem classical_predict_eq (closes : List ℚ) (r : RuleSet) (close c4 : ℚ)
    (h1 : closes.getLast? = some close) (h2 : closes.reverse.get? 3 = some c4) :
    classical_predict closes r =
      some (if classicalScore closes r close c4 ≥ 0 then 1 else -1,
            round2 (min |classicalScore closes r close c4| 1)) := by
  unfold classical_predict
  rw [h1, h2]

theorem classical_predict_bounds (closes : List ℚ) (r : RuleSet)
    (pred : Int) (conf : ℚ)
    (h : classical_predict closes r = some (pred, conf)) :
    (pred = 1 ∨ pred = -1) ∧ 0 ≤ conf ∧ conf ≤ 1 := by
  unfold classical_predict at h
  cases hg : closes.getLast? with
  | none => rw [hg] at h; cases h
  | some close =>
    cases hr : closes.reverse.get? 3 with
    | none => rw [hg, hr] at h; cases h
    | some c4 =>
      rw [hg, hr] at h
      simp only [Option.some.injEq, Prod.mk.injEq] at h
      obtain ⟨hp, hc⟩ := h
      constructor
      · by_cases hs : classicalScore closes r close c4 ≥ 0
        · left; rw [← hp]; simp [hs]
        · right; rw [← hp]; simp [hs]
      · rw [← hc]
        exact round2_bounds _ (le_min (abs_nonneg _) (by norm_num))
          (min_le_right _ _)

theorem refineOne_fst (h : Hist) :
    (refineOne h).1 =
      if (h.ones : ℚ) / ((max (h.ones + h.zeros) 1 : Nat) : ℚ) ≥ 1/2 then 1
      else -1 := rfl

theorem refineOne_snd (h : Hist) :
    (refineOne h).2 =
      round2 (|(h.ones : ℚ) / ((max (h.ones + h.zeros) 1 : Nat) : ℚ) - 1/2| * 2) :=
  rfl

theorem refineOne_bounds (h : Hist) :
    ((refineOne h).1 = 1 ∨ (refineOne h).1 = -1) ∧
      0 ≤ (refineOne h).2 ∧ (refineOne h).2 ≤ 1 := by
  have hden : (0 : ℚ) < ((max (h.ones + h.zeros) 1 : Nat) : ℚ) := by
    have h1 : (1 : Nat) ≤ max (h.ones + h.zeros) 1 := le_max_right _ _
    exact_mod_cast Nat.lt_of_lt_of_le Nat.zero_lt_one h1
  have hnum : ((h.ones : ℚ)) ≤ ((max (h.ones + h.zeros) 1 : Nat) : ℚ) := by
    have h1 : h.ones ≤ max (h.ones + h.zeros) 1 :=
      le_trans (Nat.le_add_right _ _) (le_max_left _ _)
    exact_mod_cast h1
  have hp0 : (0 : ℚ) ≤ (h.ones : ℚ) / ((max (h.ones + h.zeros) 1 : Nat) : ℚ) :=
    div_nonneg (by positivity) (le_of_lt hden)
  have hp1 : (h.ones : ℚ) / ((max (h.ones + h.zeros) 1 : Nat) : ℚ) ≤ 1 :=
    (div_le_one hden).mpr hnum
  refine ⟨?_, ?_⟩
  · rw [refineOne_fst]
    by_cases hge : (h.ones : ℚ) / ((max (h.ones + h.zeros) 1 : Nat) : ℚ) ≥ 1/2
    · left; rw [if_pos hge]
    · right; rw [if_neg hge]
  · rw [refineOne_snd]
    have habs : |(h.ones : ℚ) / ((max (h.ones + h.zeros) 1 : Nat) : ℚ) - 1/2| ≤ 1/2 :=
      abs_sub_le_iff.mpr ⟨by linarith, by linarith⟩
    have habs0 : 0 ≤ |(h.ones : ℚ) / ((max (h.ones + h.zeros) 1 : Nat) : ℚ) - 1/2| :=
      abs_nonneg _
    exact round2_bounds _ (by linarith) (by linarith)

theorem refineFold_fst (l : List (Nat × Hist)) (ps : List Int) (cs : List ℚ) :
    (refineFold l ps cs).1 =
      l.foldl (fun acc ih => acc.set ih.1 (refineOne ih.2).1) ps := by
  induction l generalizing ps cs with
  | nil => rfl
  | cons hd tl ih => simpa [refineFold, List.foldl] using ih _ _

theorem refineFold_snd (l : List (Nat × Hist)) (ps : List Int) (cs : List ℚ) :
    (refineFold l ps cs).2 =
      l.foldl (fun acc ih => acc.set ih.1 (refineOne ih.2).2) cs := by
  induction l generalizing ps cs with
  | nil => rfl
  | cons hd tl ih => simpa [refineFold, List.foldl] using ih _ _

theorem length_foldl_set {α β : Type} (f : β → Nat) (v : β → α) (l : List β)
    (init : List α) :
    (l.foldl (fun acc b => acc.set (f b) (v b)) init).length = init.length := by
  induction l generalizing init with
  | nil => rfl
  | cons hd tl ih =>
    rw [List.foldl_cons, ih (init.set (f hd) (v hd)), List.length_set]

theorem mem_set_cases {α : Type} (l : List α) (n : Nat) (a x : α)
    (hx : x ∈ l.set n a) : x ∈ l ∨ x = a := by
  induction l generalizing n with
  | nil => simp [List.set] at hx
  | cons hd tl ih =>
    cases n with
    | zero =>
      rcases List.mem_cons.mp hx with h | h
      · right; exact h
      · left; exact List.mem_cons_of_mem _ h
    | succ m =>
      rcases List.mem_cons.mp hx with h | h
      · left; exact h ▸ List.mem_cons_self _ _
      · rcases ih m h with h2 | h2
        · left; exact List.mem_cons_of_mem _ h2
        · right; exact h2

theorem mem_foldl_set {α β : Type} (f : β → Nat) (v : β → α) (l : List β)
    (init : List α) (P : α → Prop)
    (h0 : ∀ x ∈ init, P x) (hv : ∀ b ∈ l, P (v b)) :
    ∀ x ∈ l.foldl (fun acc b => acc.set (f b) (v b)) init, P x := by
  induction l generalizing init with
  | nil => exact h0
  | cons hd tl ih =>
    intro x hx
    refine ih _ ?_ (fun b hb => hv b (List.mem_cons_of_mem _ hb)) x hx
    intro y hy
    rcases mem_set_cases _ _ _ _ hy with h | h
    · exact h0 y h
    · exact h ▸ hv hd (List.mem_cons_self _ _)

/-! ## Selection lemmas -/

theorem selectedIdx_replicate (n : Nat) (c : ℚ) :
    selectedIdx (List.replicate n c) =
      if c ≥ QPU_THRESHOLD then List.range n else [] := by
  by_cases hc : c ≥ QPU_THRESHOLD
  · rw [if_pos hc]
    unfold selectedIdx
    have hfilter : (List.replicate n c).enum.filter
        (fun ic => decide (ic.2 ≥ QPU_THRESHOLD)) = (List.replicate n c).enum := by
      apply List.filter_eq_self.mpr
      intro a ha
      have hmem : a.2 ∈ List.replicate n c := List.snd_mem_of_mem_enum ha
      rw [List.eq_of_mem_replicate hmem]
      exact decide_eq_true hc
    rw [hfilter, List.enum_map_fst, List.length_replicate]
  · rw [if_neg hc]
    unfold selectedIdx
    have hfilter : (List.replicate n c).enum.filter
        (fun ic => decide (ic.2 ≥ QPU_THRESHOLD)) = [] := by
      apply List.filter_eq_nil_iff.mpr
      intro a ha
      have hmem : a.2 ∈ List.replicate n c := List.snd_mem_of_mem_enum ha
      rw [List.eq_of_mem_replicate hmem]
      simpa using hc
    rw [hfilter, List.map_nil]

theorem use_shots_denied (n : Nat) (data : List (String × Nat)) (today : String)
    (h : (use_shots n data today).1 = false) :
    use_shots n data today = (false, data) := by
  rw [use_shots_eq] at h ⊢
  by_cases hc : usageOf data today + n > DAILY_BUDGET
  · rw [if_pos hc]
  · rw [if_neg hc] at h
    cases h


theorem round2_7_10 : round2 (7/10) = 7/10 := by
  rw [round2_eval (7/10) 70 (by norm_num) (by norm_num)]; norm_num

theorem round2_one : round2 1 = 1 := by
  rw [round2_eval 1 100 (by norm_num) (by norm_num)]; norm_num

theorem round2_1_5 : round2 (1/5) = 1/5 := by
  rw [round2_eval (1/5) 20 (by norm_num) (by norm_num)]; norm_num

theorem round2_1_10 : round2 (1/10) = 1/10 := by
  rw [round2_eval (1/10) 10 (by norm_num) (by norm_num)]; norm_num

theorem classical_predict_flat :
    classical_predict [10,10,10,10] defaultRules = some (-1, 7/10) := by
  norm_num [classical_predict, classicalScore, ma, mean, lastN, rsi, diffs,
    iv_rank, ivHistConst, defaultRules, List.getLast?, List.getLast,
    abs, min_def, max_def, round2_7_10]

theorem classical_predict_up :
    classical_predict [1,2,3,4] unitTrendRules = some (1, 1) := by
  norm_num [classical_predict, classicalScore, ma, mean, lastN, rsi, diffs,
    iv_rank, ivHistConst, unitTrendRules, List.getLast?, List.getLast,
    abs, min_def, max_def, round2_one]

theorem classical_predict_cand :
    classical_predict [10,10,10,10] candTrendRules = some (1, 1/10) := by
  norm_num [classical_predict, classicalScore, ma, mean, lastN, rsi, diffs,
    iv_rank, ivHistConst, candTrendRules, List.getLast?, List.getLast,
    abs, min_def, max_def, round2_1_10]

theorem refineOne_60_40 : refineOne ⟨60, 40⟩ = (1, 1/5) := by
  have h1 : (refineOne ⟨60, 40⟩).1 = 1 := by
    rw [refineOne_fst]; norm_num
  have h2 : (refineOne ⟨60, 40⟩).2 = 1/5 := by
    rw [refineOne_snd]; norm_num [abs, min_def, max_def, round2_1_5]
  exact Prod.ext h1 h2

theorem batch_eval_preview :
    batch_predict [10,10,10,10] defaultRules failSubmit [] "2024-01-01" [f0] =
      Except.ok ⟨[-1], [7/10], [], false⟩ := by
  simp only [batch_predict, classical_predict_flat]
  norm_num [selectedIdx, QPU_THRESHOLD, List.enum, List.enumFrom, List.filter]

theorem batch_eval_error :
    batch_predict [1,2,3,4] unitTrendRules failSubmit [] "2024-01-01" [f0] =
      Except.error () := by
  simp only [batch_predict, classical_predict_up]
  norm_num [selectedIdx, QPU_THRESHOLD, List.enum, List.enumFrom, List.filter,
    use_shots_eq, usageOf, lookupKey, DAILY_BUDGET, SHOTS_PER_FEAT, failSubmit]

theorem batch_eval_refined :
    batch_predict [1,2,3,4] unitTrendRules okSubmit [] "2024-01-01" [f0] =
      Except.ok ⟨[1], [1/5], [("2024-01-01", 100)], true⟩ := by
  simp only [batch_predict, classical_predict_up]
  norm_num [selectedIdx, QPU_THRESHOLD, List.enum, List.enumFrom, List.filter,
    use_shots_eq, usageOf, lookupKey, DAILY_BUDGET, SHOTS_PER_FEAT, okSubmit,
    setKey, refineOne_60_40, refineFold, List.set, List.getD, build_circuit, f0]


/-! ## Claim theorems -/

/-- Claim C1: the quota reserve operation use_shots(n) is all-or-nothing:
whenever the day usage plus n exceeds the daily budget of 2500 it returns
false and leaves the day usage counter unchanged; otherwise it increments
the day usage by exactly n and returns true, with no partial grants. -/
theorem use_shots_all_or_nothing (n : Nat) (data : List (String × Nat))
    (today : String) :
    (usageOf data today + n > DAILY_BUDGET →
      (use_shots n data today).1 = false ∧
      usageOf (use_shots n data today).2 today = usageOf data today) ∧
    (usageOf data today + n ≤ DAILY_BUDGET →
      (use_shots n data today).1 = true ∧
      usageOf (use_shots n data today).2 today = usageOf data today + n) := by
  rw [use_shots_eq]
  constructor
  · intro h
    rw [if_pos h]
    exact ⟨rfl, rfl⟩
  · intro h
    rw [if_neg (by omega)]
    refine ⟨rfl, ?_⟩
    simp [usageOf, lookupKey_setKey_self]

/-- Witness for C1: a 3000-shot request on a fresh day is rejected and the
counter stays 0; a 5-shot request is granted and the counter becomes 5. -/
theorem use_shots_all_or_nothing_witness :
    ((use_shots 3000 [] "2024-01-01").1 = false ∧
      usageOf (use_shots 3000 [] "2024-01-01").2 "2024-01-01" = 0) ∧
    ((use_shots 5 [] "2024-01-01").1 = true ∧
      usageOf (use_shots 5 [] "2024-01-01").2 "2024-01-01" = 5) := by
  constructor
  · have h := (use_shots_all_or_nothing 3000 [] "2024-01-01").1 (by decide)
    simpa using h
  · have h := (use_shots_all_or_nothing 5 [] "2024-01-01").2 (by decide)
    simpa using h

/-- Claim C2: for every sequence of use_shots(n) reservation calls applied
to a single UTC day key starting from zero usage, the sum of the granted
amounts never exceeds the daily budget of 2500 (sequential step relation;
concurrency out of scope). -/
theorem granted_sum_le_budget (reqs : List Nat) (data : List (String × Nat))
    (today : String) (h0 : usageOf data today = 0) :
    grantedSum reqs (runReservations reqs data today).1 ≤ DAILY_BUDGET := by
  have h1 := runReservations_usage reqs data today
  have h2 := runReservations_usage_le reqs data today (by omega)
  omega

/-- Witness for C2: three 1000-shot requests from a fresh counter get the
decisions true, true, false; the granted total stays within budget. -/
theorem granted_sum_le_budget_witness :
    (runReservations [1000, 1000, 1000] [] "2024-01-01").1 =
      [true, true, false] ∧
    grantedSum [1000, 1000, 1000]
        (runReservations [1000, 1000, 1000] [] "2024-01-01").1 ≤
      DAILY_BUDGET :=
  ⟨by decide, granted_sum_le_budget [1000, 1000, 1000] [] "2024-01-01" rfl⟩

/-- Counterexample for C8: with a single malformed override source, loading
raises instead of falling back to the compiled-in defaults, so the claim
that the error is handled inside load is false on the code. -/
theorem malformed_override_not_fallback :
    loadRules [OverrideSource.malformed] = Except.error () ∧
    loadRules [OverrideSource.malformed] ≠ Except.ok RULES_default :=
  ⟨rfl, fun h => nomatch h⟩

/-- Claim C8 as amended: when the first existing override source is not
well-formed, parameter loading raises the parse error (the exception
propagates out of the loading loop); it does not fall back to defaults. -/
theorem malformed_override_raises (pre rest : List OverrideSource)
    (hpre : ∀ s ∈ pre, s = OverrideSource.absent) :
    loadRules (pre ++ OverrideSource.malformed :: rest) = Except.error () := by
  induction pre with
  | nil => rfl
  | cons hd tl ih =>
    have hhd := hpre hd (List.mem_cons_self _ _)
    subst hhd
    simpa [loadRules] using ih (fun s hs => hpre s (List.mem_cons_of_mem _ hs))

/-- Witness for amended C8: best_params.json missing, rules.json malformed. -/
theorem malformed_override_raises_witness :
    loadRules [OverrideSource.absent, OverrideSource.malformed] =
      Except.error () :=
  malformed_override_raises [OverrideSource.absent] []
    (by intro s hs; simpa using hs)

/-- Claim C9 evidence (code bug): during a tuning trial the sampled
candidate values are only recorded as trial user attributes; the rules
visible to the classical scorer stay the unchanged global defaults, so the
backtest inside the trial scores with default ma_trend_weight 0.4 and not
with the candidate value -0.4, which would change the prediction. -/
theorem tuning_params_not_applied :
    (objectiveParamApplication defaultRules
        [("ma_trend_weight", -(2/5))]).rules_during_backtest = defaultRules ∧
    (objectiveParamApplication defaultRules
        [("ma_trend_weight", -(2/5))]).user_attrs =
      [("ma_trend_weight", -(2/5))] ∧
    (objectiveParamApplication defaultRules
        [("ma_trend_weight", -(2/5))]).rules_during_backtest.ma_trend_weight
      = 2/5 ∧
    candTrendRules.ma_trend_weight = -(2/5) ∧
    classical_predict [10,10,10,10]
        (objectiveParamApplication defaultRules
          [("ma_trend_weight", -(2/5))]).rules_during_backtest =
      some (-1, 7/10) ∧
    classical_predict [10,10,10,10] candTrendRules = some (1, 1/10) := by
  refine ⟨rfl, rfl, rfl, rfl, ?_, classical_predict_cand⟩
  exact classical_predict_flat


/-- Claim C4: when no record of the batch reaches the 0.75 escalation
threshold (or the batch is empty), batch_predict returns the broadcast
preview unchanged for every record without ever invoking the quota
allocator; and when records are selected but the reservation is denied,
it returns the preview unchanged with the counter state untouched. -/
theorem batch_predict_fallback_preview (closes : List ℚ) (r : RuleSet)
    (submit : List ℚ → Except Unit (List Hist)) (data : List (String × Nat))
    (today : String) (feats : List Feature) (pred : Int) (conf : ℚ)
    (hcp : classical_predict closes r = some (pred, conf)) :
    ((conf < QPU_THRESHOLD ∨ feats = []) →
      batch_predict closes r submit data today feats =
        Except.ok ⟨List.replicate feats.length pred,
                   List.replicate feats.length conf, data, false⟩) ∧
    (selectedIdx (List.replicate feats.length conf) ≠ [] →
      (use_shots ((selectedIdx (List.replicate feats.length conf)).length *
          SHOTS_PER_FEAT) data today).1 = false →
      batch_predict closes r submit data today feats =
        Except.ok ⟨List.replicate feats.length pred,
                   List.replicate feats.length conf, data, true⟩) := by
  constructor
  · intro hc
    have hsel : selectedIdx (List.replicate feats.length conf) = [] := by
      rw [selectedIdx_replicate]
      rcases hc with hc | hc
      · rw [if_neg (not_le.mpr hc)]
      · subst hc
        simp
    simp only [batch_predict, hcp]
    simp [hsel]
  · intro hne hdeny
    have hdeny2 := use_shots_denied _ data today hdeny
    have hempty : (selectedIdx (List.replicate feats.length conf)).isEmpty = false := by
      cases hsel : selectedIdx (List.replicate feats.length conf) with
      | nil => exact absurd hsel hne
      | cons a l => rfl
    simp only [batch_predict, hcp]
    simp [hempty, hdeny, hdeny2]

/-- Witness for C4: a preview confidence of 0.7 is below 0.75, so the
pipeline returns the broadcast preview and never touches the counter;
a preview confidence of 1 with 2450 shots already used is denied
(2450 + 100 > 2500) and also falls back to the preview. -/
theorem batch_predict_fallback_preview_witness :
    batch_predict [10,10,10,10] defaultRules failSubmit [] "2024-01-01" [f0] =
      Except.ok ⟨List.replicate 1 (-1), List.replicate 1 (7/10), [], false⟩ ∧
    batch_predict [1,2,3,4] unitTrendRules failSubmit
        [("2024-01-01", 2450)] "2024-01-01" [f0] =
      Except.ok ⟨List.replicate 1 1, List.replicate 1 1,
                 [("2024-01-01", 2450)], true⟩ := by
  constructor
  · exact (batch_predict_fallback_preview [10,10,10,10] defaultRules failSubmit
      [] "2024-01-01" [f0] (-1) (7/10) classical_predict_flat).1
      (Or.inl (by norm_num [QPU_THRESHOLD]))
  · exact (batch_predict_fallback_preview [1,2,3,4] unitTrendRules failSubmit
      [("2024-01-01", 2450)] "2024-01-01" [f0] 1 1 classical_predict_up).2
      (by norm_num [selectedIdx, QPU_THRESHOLD, List.enum, List.enumFrom,
            List.filter])
      (by norm_num [selectedIdx, QPU_THRESHOLD, List.enum, List.enumFrom,
            List.filter, use_shots_eq, usageOf, lookupKey, DAILY_BUDGET,
            SHOTS_PER_FEAT])

/-- Counterexample for C5: with one record escalated (preview confidence 1),
a granted reservation and a backend that raises, batch_predict evaluates to
an error — the already-computed preview is not returned to the caller,
contradicting the claim that the fault is caught at the pipeline boundary. -/
theorem backend_fault_not_caught :
    batch_predict [1,2,3,4] unitTrendRules failSubmit [] "2024-01-01" [f0] =
      Except.error () :=
  batch_eval_error

/-- Claim C5 as amended: if the backend call raises after the quota
reservation succeeded, the exception propagates out of batch_predict
unchanged (there is no handler at the pipeline boundary), and the preview
results are not returned. -/
theorem backend_error_propagates (closes : List ℚ) (r : RuleSet)
    (submit : List ℚ → Except Unit (List Hist)) (data : List (String × Nat))
    (today : String) (feats : List Feature) (pred : Int) (conf : ℚ) (e : Unit)
    (hcp : classical_predict closes r = some (pred, conf))
    (hne : selectedIdx (List.replicate feats.length conf) ≠ [])
    (hgrant : (use_shots ((selectedIdx (List.replicate feats.length conf)).length *
        SHOTS_PER_FEAT) data today).1 = true)
    (hsub : submit ((selectedIdx (List.replicate feats.length conf)).map
        (fun i => build_circuit (feats.getD i default))) = Except.error e) :
    batch_predict closes r submit data today feats = Except.error e := by
  have hempty : (selectedIdx (List.replicate feats.length conf)).isEmpty = false := by
    cases hsel : selectedIdx (List.replicate feats.length conf) with
    | nil => exact absurd hsel hne
    | cons a l => rfl
  simp only [batch_predict, hcp, hempty, Bool.false_eq_true, if_false,
    hgrant, if_true, hsub]

/-- Witness for amended C5: concrete escalated batch whose backend raises
after the 100-shot reservation succeeded. -/
theorem backend_error_propagates_witness :
    batch_predict [1,2,3,4] unitTrendRules failSubmit [] "2024-01-01"
        [f0] = Except.error () :=
  backend_error_propagates [1,2,3,4] unitTrendRules failSubmit []
    "2024-01-01" [f0] 1 1 () classical_predict_up
    (by norm_num [selectedIdx, QPU_THRESHOLD, List.enum, List.enumFrom,
          List.filter])
    (by norm_num [selectedIdx, QPU_THRESHOLD, List.enum, List.enumFrom,
          List.filter, use_shots_eq, usageOf, lookupKey, DAILY_BUDGET,
          SHOTS_PER_FEAT])
    rfl

/-- Claim C10 (implicit): the preview is broadcast, so the escalation
selection picks either no index or every index of the batch — refinement is
all-or-none — and in the unselected case every record carries the identical
unrefined preview result. -/
theorem batch_all_or_none (closes : List ℚ) (r : RuleSet)
    (submit : List ℚ → Except Unit (List Hist)) (data : List (String × Nat))
    (today : String) (feats : List Feature) (pred : Int) (conf : ℚ)
    (hcp : classical_predict closes r = some (pred, conf)) :
    (selectedIdx (List.replicate feats.length conf) = [] ∨
      selectedIdx (List.replicate feats.length conf) =
        List.range feats.length) ∧
    (selectedIdx (List.replicate feats.length conf) = [] →
      batch_predict closes r submit data today feats =
        Except.ok ⟨List.replicate feats.length pred,
                   List.replicate feats.length conf, data, false⟩) := by
  constructor
  · rw [selectedIdx_replicate]
    by_cases hc : conf ≥ QPU_THRESHOLD
    · right
      rw [if_pos hc]
    · left
      rw [if_neg hc]
  · intro hsel
    simp only [batch_predict, hcp]
    simp [hsel]

/-- Witness for C10: a two-record batch with preview confidence 0.7 selects
no index and both records carry the identical preview result. -/
theorem batch_all_or_none_witness :
    (selectedIdx (List.replicate 2 (7/10)) = [] ∨
      selectedIdx (List.replicate 2 (7/10)) = List.range 2) ∧
    batch_predict [10,10,10,10] defaultRules failSubmit [] "2024-01-01"
        [f0, f0] =
      Except.ok ⟨List.replicate 2 (-1), List.replicate 2 (7/10), [], false⟩ := by
  have h := batch_all_or_none [10,10,10,10] defaultRules failSubmit []
    "2024-01-01" [f0, f0] (-1) (7/10) classical_predict_flat
  exact ⟨h.1, h.2 (by norm_num [selectedIdx_replicate, QPU_THRESHOLD])⟩


theorem refineFold_length_fst (l : List (Nat × Hist)) (ps : List Int)
    (cs : List ℚ) : (refineFold l ps cs).1.length = ps.length := by
  rw [refineFold_fst]
  exact length_foldl_set (fun ih => ih.1) (fun ih => (refineOne ih.2).1) l ps

theorem refineFold_length_snd (l : List (Nat × Hist)) (ps : List Int)
    (cs : List ℚ) : (refineFold l ps cs).2.length = cs.length := by
  rw [refineFold_snd]
  exact length_foldl_set (fun ih => ih.1) (fun ih => (refineOne ih.2).2) l cs

/-- Lengths of both output lists of batch_predict equal the input length,
on every successful path. -/
theorem batch_predict_length_eq (closes : List ℚ) (r : RuleSet)
    (submit : List ℚ → Except Unit (List Hist)) (data : List (String × Nat))
    (today : String) (feats : List Feature) (res : BatchResult)
    (h : batch_predict closes r submit data today feats = Except.ok res) :
    res.preds.length = feats.length ∧ res.confs.length = feats.length := by
  unfold batch_predict at h
  cases hcp : classical_predict closes r with
  | none =>
    rw [hcp] at h
    cases h
  | some pc =>
    rw [hcp] at h
    simp only at h
    split at h
    · cases h
      simp
    · split at h
      · split at h
        · cases h
        · split at h
          · cases h
          · cases h
            simp [refineFold_length_fst, refineFold_length_snd]
      · cases h
        simp


/-- Claim C7: every (signal, confidence) pair produced by batch_predict,
preview or refined, has signal in the two-element set 1, -1 and confidence
within 0 and 1. -/
theorem batch_predict_signal_conf_bounds (closes : List ℚ) (r : RuleSet)
    (submit : List ℚ → Except Unit (List Hist)) (data : List (String × Nat))
    (today : String) (feats : List Feature) (res : BatchResult)
    (h : batch_predict closes r submit data today feats = Except.ok res) :
    (∀ p ∈ res.preds, p = 1 ∨ p = -1) ∧
      (∀ c ∈ res.confs, 0 ≤ c ∧ c ≤ 1) := by
  unfold batch_predict at h
  cases hcp : classical_predict closes r with
  | none =>
    rw [hcp] at h
    cases h
  | some pc =>
    have hb := classical_predict_bounds closes r pc.1 pc.2 (by rw [hcp])
    rw [hcp] at h
    simp only at h
    split at h
    · cases h
      dsimp only
      constructor
      · intro p hp
        rw [List.eq_of_mem_replicate hp]
        exact hb.1
      · intro c hc
        rw [List.eq_of_mem_replicate hc]
        exact hb.2
    · split at h
      · split at h
        · cases h
        · split at h
          · cases h
          · cases h
            dsimp only
            constructor
            · intro p hp
              rw [refineFold_fst] at hp
              refine mem_foldl_set (fun (ih : Nat × Hist) => ih.1)
                (fun (ih : Nat × Hist) => (refineOne ih.2).1) _ _
                (fun p => p = 1 ∨ p = -1) ?_ ?_ p hp
              · intro x hx
                rw [List.eq_of_mem_replicate hx]
                exact hb.1
              · intro b hmem
                exact (refineOne_bounds b.2).1
            · intro c hc
              rw [refineFold_snd] at hc
              refine mem_foldl_set (fun (ih : Nat × Hist) => ih.1)
                (fun (ih : Nat × Hist) => (refineOne ih.2).2) _ _
                (fun c => 0 ≤ c ∧ c ≤ 1) ?_ ?_ c hc
              · intro x hx
                rw [List.eq_of_mem_replicate hx]
                exact hb.2
              · intro b hmem
                exact (refineOne_bounds b.2).2
      · cases h
        dsimp only
        constructor
        · intro p hp
          rw [List.eq_of_mem_replicate hp]
          exact hb.1
        · intro c hc
          rw [List.eq_of_mem_replicate hc]
          exact hb.2


/-- Witness for C7: the refined result of a concrete run satisfies the
signal and confidence range conditions. -/
theorem batch_predict_signal_conf_bounds_witness :
    (∀ p ∈ (⟨[1], [1/5], [("2024-01-01", 100)], true⟩ :
        BatchResult).preds, p = 1 ∨ p = -1) ∧
    (∀ c ∈ (⟨[1], [1/5], [("2024-01-01", 100)], true⟩ :
        BatchResult).confs, 0 ≤ c ∧ c ≤ 1) :=
  batch_predict_signal_conf_bounds [1,2,3,4] unitTrendRules okSubmit []
    "2024-01-01" [f0] _ batch_eval_refined

/-- Claim C6: the classical scorer is a pure deterministic function of the
price history and the ruleset, with signal +1 when the accumulated weighted
score is nonnegative, -1 otherwise, confidence round(min(abs(score), 1), 2),
and the score the sum of the trend, momentum, oscillator-threshold and
volatility-rank-threshold contributions. -/
theorem classical_predict_formula (closes : List ℚ) (r : RuleSet)
    (close c4 : ℚ) (h1 : closes.getLast? = some close)
    (h2 : closes.reverse.get? 3 = some c4) :
    classical_predict closes r =
      some (if classicalScore closes r close c4 ≥ 0 then 1 else -1,
            round2 (min |classicalScore closes r close c4| 1)) ∧
    classicalScore closes r close c4 =
      trendContrib closes r close + momentumContrib r close c4 +
        oscillatorContrib closes r + volRankContrib r ∧
    (∀ closes2 r2, closes2 = closes → r2 = r →
      classical_predict closes2 r2 = classical_predict closes r) := by
  refine ⟨classical_predict_eq closes r close c4 h1 h2,
    classicalScore_decomp closes r close c4, ?_⟩
  intro closes2 r2 e1 e2
  rw [e1, e2]

/-- Witness for C6: the formula applied to a flat four-day history. -/
theorem classical_predict_formula_witness :
    classical_predict [10,10,10,10] defaultRules =
      some (if classicalScore [10,10,10,10] defaultRules 10 10 ≥ 0 then 1
            else -1,
            round2 (min |classicalScore [10,10,10,10] defaultRules 10 10| 1)) :=
  (classical_predict_formula [10,10,10,10] defaultRules 10 10 rfl rfl).1


theorem getElem?_foldl_set_zip {α : Type} (v : Hist → α) (n : Nat) :
    ∀ (hists : List Hist) (init : List α), n ≤ init.length →
      n ≤ hists.length → ∀ i, i < n →
      (((List.range n).zip hists).foldl
          (fun acc (b : Nat × Hist) => acc.set b.1 (v b.2)) init)[i]? =
        some (v (hists.getD i default)) := by
  induction n with
  | zero =>
    intro hists init _ _ i hi
    exact absurd hi (Nat.not_lt_zero i)
  | succ n ih =>
    intro hists init hinit hlen i hi
    obtain ⟨hd, tl, hdrop⟩ : ∃ hd tl, hists.drop n = hd :: tl := by
      cases hdrop : hists.drop n with
      | nil =>
        have hlen0 : hists.length - n = 0 := by
          simpa using congrArg List.length hdrop
        omega
      | cons hd tl => exact ⟨hd, tl, rfl⟩
    have hgetn : hists[n]? = some hd := by
      have h0 := List.getElem?_drop hists n 0
      simpa [hdrop] using h0.symm
    have hzip : (List.range (n+1)).zip hists =
        (List.range n).zip (hists.take n) ++ [(n, hd)] := by
      conv_lhs => rw [List.range_succ, ← List.take_append_drop n hists]
      rw [List.zip_append (by simp [List.length_take]; omega), hdrop]
      rfl
    rw [hzip, List.foldl_append]
    simp only [List.foldl_cons, List.foldl_nil]
    have hinner : (((List.range n).zip (hists.take n)).foldl
        (fun acc (b : Nat × Hist) => acc.set b.1 (v b.2)) init).length = init.length :=
      length_foldl_set (fun (b : Nat × Hist) => b.1) (fun (b : Nat × Hist) => v b.2) _ _
    by_cases hin : i = n
    · subst hin
      rw [List.getElem?_set_eq_of_lt _ (by omega)]
      rw [List.getD_eq_getElem?_getD, hgetn]
      rfl
    · have hi2 : i < n := by omega
      rw [List.getElem?_set_ne (by omega : n ≠ i)]
      rw [ih (hists.take n) init (by omega)
        (by simp [List.length_take]; omega) i hi2]
      rw [List.getD_eq_getElem?_getD, List.getD_eq_getElem?_getD,
        List.getElem?_take_of_lt hi2]

/-- Claim C3: batch_predict returns prediction and confidence lists whose
lengths both equal the input length, and the i-th entries of both outputs
correspond to the i-th input record, on both paths: on the unrefined path
every position i carries the preview pair, and on the refined path position
i is recomputed from the i-th histogram of the backend reply to the in-order
circuits built from the in-order feature records. -/
theorem batch_predict_length_order (closes : List ℚ) (r : RuleSet)
    (submit : List ℚ → Except Unit (List Hist)) (data : List (String × Nat))
    (today : String) (feats : List Feature) (res : BatchResult)
    (pred : Int) (conf : ℚ)
    (hcp : classical_predict closes r = some (pred, conf))
    (h : batch_predict closes r submit data today feats = Except.ok res) :
    res.preds.length = feats.length ∧ res.confs.length = feats.length ∧
    ((∀ i, i < feats.length →
        res.preds[i]? = some pred ∧ res.confs[i]? = some conf) ∨
     (∃ hists : List Hist, feats.length ≤ hists.length ∧
        submit ((List.range feats.length).map
          (fun i => build_circuit (feats.getD i default))) = Except.ok hists ∧
        ∀ i, i < feats.length →
          res.preds[i]? = some (refineOne (hists.getD i default)).1 ∧
          res.confs[i]? = some (refineOne (hists.getD i default)).2)) := by
  unfold batch_predict at h
  rw [hcp] at h
  simp only at h
  split at h
  · cases h
    refine ⟨by simp, by simp, Or.inl ?_⟩
    intro i hi
    constructor <;> simp [List.getElem?_replicate, hi]
  next hempty =>
    have hidx : selectedIdx (List.replicate feats.length conf) =
        List.range feats.length := by
      rcases le_or_lt QPU_THRESHOLD conf with hc | hc
      · rw [selectedIdx_replicate, if_pos hc]
      · exfalso
        apply hempty
        rw [selectedIdx_replicate, if_neg (not_le.mpr hc)]
        rfl
    split at h
    · split at h
      · cases h
      next hists hsub =>
        split at h
        · cases h
        next hover =>
          cases h
          have hlen : feats.length ≤ hists.length := by
            rw [hidx, List.length_range] at hover
            omega
          refine ⟨?_, ?_, Or.inr ⟨hists, hlen, ?_, ?_⟩⟩
          · simp [refineFold_length_fst]
          · simp [refineFold_length_snd]
          · rw [hidx] at hsub
            exact hsub
          · intro i hi
            constructor
            · show (refineFold ((selectedIdx (List.replicate feats.length
                  conf)).zip hists) (List.replicate feats.length pred)
                  (List.replicate feats.length conf)).1[i]? = _
              rw [refineFold_fst, hidx]
              exact getElem?_foldl_set_zip (fun hh => (refineOne hh).1)
                feats.length hists _ (by simp) hlen i hi
            · show (refineFold ((selectedIdx (List.replicate feats.length
                  conf)).zip hists) (List.replicate feats.length pred)
                  (List.replicate feats.length conf)).2[i]? = _
              rw [refineFold_snd, hidx]
              exact getElem?_foldl_set_zip (fun hh => (refineOne hh).2)
                feats.length hists _ (by simp) hlen i hi
    · cases h
      refine ⟨by simp, by simp, Or.inl ?_⟩
      intro i hi
      constructor <;> simp [List.getElem?_replicate, hi]

/-- Witness for C3: a one-record batch through the refined path; the single
output entry is recomputed from the backend histogram for that record. -/
theorem batch_predict_length_order_witness :
    (⟨[1], [1/5], [("2024-01-01", 100)], true⟩ : BatchResult).preds.length =
      [f0].length ∧
    (⟨[1], [1/5], [("2024-01-01", 100)], true⟩ : BatchResult).confs.length =
      [f0].length ∧
    ((∀ i, i < [f0].length →
        (⟨[1], [1/5], [("2024-01-01", 100)], true⟩ :
          BatchResult).preds[i]? = some 1 ∧
        (⟨[1], [1/5], [("2024-01-01", 100)], true⟩ :
          BatchResult).confs[i]? = some 1) ∨
     (∃ hists : List Hist, [f0].length ≤ hists.length ∧
        okSubmit ((List.range [f0].length).map
          (fun i => build_circuit ([f0].getD i default))) = Except.ok hists ∧
        ∀ i, i < [f0].length →
          (⟨[1], [1/5], [("2024-01-01", 100)], true⟩ :
            BatchResult).preds[i]? =
            some (refineOne (hists.getD i default)).1 ∧
          (⟨[1], [1/5], [("2024-01-01", 100)], true⟩ :
            BatchResult).confs[i]? =
            some (refineOne (hists.getD i default)).2)) :=
  batch_predict_length_order [1,2,3,4] unitTrendRules okSubmit []
    "2024-01-01" [f0] _ 1 1 classical_predict_up batch_eval_refined

end LQM
